import Mathlib

/-!
Verification of the asset-management reconciliation core.

Shallow embedding of the Python sources of the `valdo` asset-management
repository (`src/helpers/utils.py`, `src/helpers/db.py`,
`src/helpers/automation.py`, `src/app.py`) together with proofs settling
the frozen claims C1 - C10 about the natural-language specification.

Conventions of the embedding:
* Python strings are Lean `String` / `List Char`;
* Python `None` / SQL `NULL` is `Option.none`;
* the SQLite tables are lists of row structures projected onto the columns
  the claims talk about (identifier, serial number, asset name, quantity,
  creation timestamp); the remaining purely descriptive columns play no
  role in any claim;
* the wall clock (`datetime.now().isoformat()`) is passed in explicitly as
  a `now : String` argument;
* fallible SQL statements return `Except`/error-option values.
-/

namespace Valdo

/-! ## Identifier sequencer (`src/helpers/utils.py`, `increment_string`) -/

/-- Numeric value of a run of decimal digits, as Python `int` parses it. -/
def digitsVal (l : List Char) : Nat :=
  l.foldl (fun a c => 10 * a + (c.toNat - 48)) 0

/-- Python `str.zfill`: left-pad with `'0'` to the given width, keeping a
leading sign character in front of the padding.  Never truncates. -/
def zfill (l : List Char) (w : Nat) : List Char :=
  match l with
  | [] => List.replicate w '0'
  | c :: rest =>
    if c = '-' ∨ c = '+' then
      c :: (List.replicate (w - (rest.length + 1)) '0' ++ rest)
    else
      List.replicate (w - (rest.length + 1)) '0' ++ (c :: rest)

/-- Decomposition of a character list around the last maximal run of
decimal digits, mirroring the final match of the digit-run regex in
`re.finditer`: returns
`(before, run, after)` where `run` is the rightmost maximal digit run,
or `none` when the list has no digit.  Computed from the reversed list:
the rightmost run is the first run of the reversal. -/
def lastDigitRun (l : List Char) : Option (List Char × List Char × List Char) :=
  if ((l.reverse).dropWhile (fun c => !c.isDigit)).isEmpty then none
  else
    some ((((l.reverse).dropWhile (fun c => !c.isDigit)).dropWhile Char.isDigit).reverse,
          (((l.reverse).dropWhile (fun c => !c.isDigit)).takeWhile Char.isDigit).reverse,
          ((l.reverse).takeWhile (fun c => !c.isDigit)).reverse)

/-- `increment_string` from `src/helpers/utils.py`: increments the last
numeric run of `s` by `steps`, preserving zero padding via `zfill` on the
length of the original run.  Strings without digits come back unchanged. -/
def increment_string (s : String) (steps : Int) : String :=
  if s = "" then s
  else
    match lastDigitRun s.data with
    | none => s
    | some (p, r, t) =>
      let newVal : Int := (digitsVal r : Int) + steps
      String.mk (p ++ zfill (toString newVal).data r.length ++ t)

/-! ## Catalog/registry store (`src/helpers/db.py`)

The SQLite tables are modelled as lists of row structures projected onto
the columns the claims mention.  `fact_inventory` rows keep the
identifier (`kode`, TEXT PRIMARY KEY), the serial number, the referenced
asset name (`nama_aset`, NOT NULL), the quantity and the creation
timestamp; the remaining 26 purely descriptive columns play no role in
any claim about this layer.  SQL NULL is `none`. -/

structure InvRow where
  kode : Option String
  serial_number : Option String
  nama_aset : Option String
  quantity : Option Int
  timestamp : String
deriving DecidableEq

/-- The `fact_inventory` table: a list of rows in insertion order. -/
abbrev DbState := List InvRow

/-- Constraint violations SQLite can raise on the modelled inserts. -/
inductive DbErr where
  | dupKey (col : String)
  | notNullViolation (col : String)
deriving DecidableEq

/-- The text of the `sqlite3.IntegrityError` for each violation, as it
reaches Python callers via `str(e)`. -/
def errMsg : DbErr → String
  | .dupKey col => "UNIQUE constraint failed: " ++ col
  | .notNullViolation col => "NOT NULL constraint failed: " ++ col

/-- The values `AssetDatabase.insert_inventory` binds into its INSERT,
drawn from the caller dict: `data.get(...)` for the listed keys, with
missing keys becoming `None`/NULL.  `suppliedTimestamp` stands for any
timestamp the caller may put in the dict: the INSERT never reads it —
the 31st bound value is `datetime.now().isoformat()` (`now` here). -/
structure InsertData where
  kode : Option String
  serial_number : Option String
  nama_aset : Option String
  quantity : Option Int
  suppliedTimestamp : Option String
deriving DecidableEq

/-- `AssetDatabase.kode_exists`: `SELECT 1 FROM fact_inventory WHERE kode = ?`. -/
def kode_exists (db : DbState) (k : String) : Bool :=
  db.any (fun r => r.kode == some k)

/-- `AssetDatabase.serial_exists`: probe on `serial_number` (no constraint
backs it — the column is not UNIQUE in the schema). -/
def serial_exists (db : DbState) (sn : String) : Bool :=
  db.any (fun r => r.serial_number == some sn)

/-- `AssetDatabase.insert_inventory`: one INSERT in its own transaction.
SQLite enforces `nama_aset TEXT NOT NULL` and `kode TEXT PRIMARY KEY`;
a NULL `kode` is accepted by a SQLite non-INTEGER PRIMARY KEY and never
collides.  The stored timestamp is the server-side `now`; the
`suppliedTimestamp` of the caller is not consulted. -/
def insert_inventory (now : String) (d : InsertData) (db : DbState) :
    Except DbErr DbState :=
  match d.nama_aset with
  | none => .error (.notNullViolation "fact_inventory.nama_aset")
  | some _ =>
    match d.kode with
    | some k =>
      if kode_exists db k then .error (.dupKey "fact_inventory.kode")
      else .ok (db ++ [⟨some k, d.serial_number, d.nama_aset, d.quantity, now⟩])
    | none => .ok (db ++ [⟨none, d.serial_number, d.nama_aset, d.quantity, now⟩])

/-- Lexicographic comparison of character lists, the order that the
SQLite BINARY collation induces on TEXT values (byte order on UTF-8 agrees
with codepoint order). -/
def strLe : List Char → List Char → Bool
  | [], _ => true
  | _ :: _, [] => false
  | a :: as, b :: bs =>
    if a < b then true
    else if a = b then strLe as bs
    else false

/-- SQLite `ORDER BY kode DESC` ordering on a nullable TEXT column:
NULL sorts below every string. -/
def kodeLe (a b : Option String) : Bool :=
  match a, b with
  | none, _ => true
  | some _, none => false
  | some x, some y => strLe x.data y.data

/-- Fold selecting a row maximal under `kodeLe` (later rows win ties). -/
def pickLatest (acc : Option InvRow) (l : List InvRow) : Option InvRow :=
  l.foldl (fun acc r =>
    match acc with
    | none => some r
    | some m => if kodeLe m.kode r.kode then some r else some m) acc

/-- `AssetDatabase.get_latest_item`: `WHERE nama_aset = ? ORDER BY kode
DESC LIMIT 1` — the row with the lexicographically largest kode among
the rows of the given asset. -/
def get_latest_item (db : DbState) (nama : String) : Option InvRow :=
  pickLatest none (db.filter (fun r => r.nama_aset == some nama))

/-! ## Bulk creation workflow (`src/app.py`, `add_inventory_dialog` save
branch, lines 169-237)

The dialog collects a base `kode`, a base `serial_number`, a quantity and
the selected asset name, validates, then runs the bulk loop: iteration 0
inserts the base values verbatim, every later iteration first applies
`increment_string` to the running kode (and to the running serial when it
is non-empty).  Each insert is its own transaction; the first failure
stops the loop and surfaces `"❌ Error: " + str(e)`. -/

/-- The row a dialog iteration persists: `Quantity` is the literal `1`
(`# Always 1 for individual tracking`), timestamp stamped at insert. -/
def mkInvRow (now asset ck cs : String) : InvRow :=
  ⟨some ck, some cs, some asset, some 1, now⟩

/-- The dict the dialog hands to `insert_inventory` on one iteration. -/
def mkDialogData (asset ck cs : String) : InsertData :=
  ⟨some ck, some cs, some asset, some 1, none⟩

/-- The `for i in range(quantity)` loop, restructured on the remaining
count: returns the final table, the kodes created in order, and the
error report if an insert failed (in which case iteration stopped). -/
def bulkLoop (now asset : String) :
    DbState → String → String → Nat → DbState × List String × Option String
  | db, _, _, 0 => (db, [], none)
  | db, ck, cs, n + 1 =>
    match insert_inventory now (mkDialogData asset ck cs) db with
    | .error e => (db, [], some ("❌ Error: " ++ errMsg e))
    | .ok db' =>
      let res := bulkLoop now asset db'
        (increment_string ck 1)
        (if cs = "" then cs else increment_string cs 1) n
      (res.1, ck :: res.2.1, res.2.2)

/-- Outcome of pressing Save: batched validation errors (no mutation),
or a partial failure (prior inserts stay committed), or full success. -/
inductive DialogOutcome where
  | invalid (msgs : List String)
  | failed (db : DbState) (created : List String) (report : String)
  | succeeded (db : DbState) (created : List String)
deriving DecidableEq

/-- The save branch of `add_inventory_dialog`: validation (empty base
kode; base kode already present) is batched and reported together; only
when it passes does the bulk loop run. -/
def add_inventory_save (now asset kode serial : String) (quantity : Nat)
    (db : DbState) : DialogOutcome :=
  let errors :=
    (if kode = "" then ["Kode base value is required"] else []) ++
    (if kode ≠ "" ∧ kode_exists db kode = true then
       ["Base Kode already exists. Please choose a starting value that does not exist."]
     else [])
  if errors.isEmpty then
    match bulkLoop now asset db kode serial quantity with
    | (db', created, none) => .succeeded db' created
    | (db', created, some msg) => .failed db' created msg
  else .invalid errors

/-- The kode sequence the loop attempts: base, then repeated
`increment_string`. -/
def incSeq : String → Nat → List String
  | _, 0 => []
  | s, n + 1 => s :: incSeq (increment_string s 1) n

/-- The serial sequence: the empty serial is reused verbatim, a
non-empty one is incremented like the kode. -/
def serialSeq : String → Nat → List String
  | _, 0 => []
  | s, n + 1 => s :: serialSeq (if s = "" then s else increment_string s 1) n

/-- The rows a fully successful bulk run appends, in order. -/
def bulkRows (now asset : String) : String → String → Nat → List InvRow
  | _, _, 0 => []
  | ck, cs, n + 1 =>
    mkInvRow now asset ck cs ::
      bulkRows now asset (increment_string ck 1)
        (if cs = "" then cs else increment_string cs 1) n

/-! ## Spreadsheet ingest (`src/helpers/db.py`, `ingest_from_excel`,
inventory phase, lines 375-440)

Each spreadsheet row with a non-empty kode becomes one
`INSERT OR IGNORE INTO fact_inventory`; the bound quantity is
`int` of the Quantity cell when present — the cell value verbatim, with
no explosion of multi-unit rows. -/

/-- A spreadsheet row projected onto the ingested columns the claims
mention.  `kode` and `nama_aset` are already `str(...).strip()`-ed. -/
structure ExcelIngestRow where
  kode : String
  serial_number : Option String
  nama_aset : String
  quantity : Option Int
deriving DecidableEq

/-- One iteration of the inventory phase: skip empty kodes, otherwise
`INSERT OR IGNORE` (an existing kode leaves the table untouched and does
not count).  Returns the new table and whether a row was inserted. -/
def ingest_row_insert (now : String) (db : DbState) (r : ExcelIngestRow) :
    DbState × Bool :=
  if r.kode = "" then (db, false)
  else if kode_exists db r.kode then (db, false)
  else (db ++ [⟨some r.kode, r.serial_number, some r.nama_aset, r.quantity, now⟩], true)

/-- The whole inventory phase: fold over the data rows, counting
`inventory_added`. -/
def ingest_inventory_phase (now : String) (db : DbState)
    (rows : List ExcelIngestRow) : DbState × Nat :=
  rows.foldl (fun acc r =>
    let res := ingest_row_insert now acc.1 r
    (res.1, acc.2 + (if res.2 then 1 else 0))) (db, 0)

/-! ## Combined upsert (`src/helpers/db.py`,
`upsert_asset_and_inventory`, lines 252-313)

One connection, one transaction: optionally insert the asset (when its
name is not yet in `dim_assets`), then insert the inventory row, then
`commit`; any exception triggers `rollback`, leaving the store exactly
as before the call.  (When the asset already exists the code also
back-fills brand/classification/os defaults into the inventory dict —
those columns are outside this projection.) -/

/-- A `dim_assets` row projected onto the columns this code path
inserts. -/
structure AssetDef where
  nama_aset : String
  brand : Option String
  sub_klasifikasi : Option String
  jenis_aset : Option String
  spesifikasi : Option String
  os_default : Option String
deriving DecidableEq

/-- The two-table store. -/
structure FullDb where
  assets : List AssetDef
  inventory : DbState
deriving DecidableEq

/-- `upsert_asset_and_inventory`.  The second component of the pair is the
error the caller sees (re-raised after `rollback`); on error the first
component is the original store — the uncommitted asset insert is
rolled back together with everything else. -/
def upsert_asset_and_inventory (now : String) (db : FullDb)
    (assetData : AssetDef) (invData : InsertData) : FullDb × Option DbErr :=
  let assetKnown := db.assets.any (fun a => a.nama_aset == assetData.nama_aset)
  let assets1 := if assetKnown then db.assets else db.assets ++ [assetData]
  match insert_inventory now invData db.inventory with
  | .error e => (db, some e)
  | .ok inv' => (⟨assets1, inv'⟩, none)

/-! ## Reconciliation engine (`src/helpers/automation.py`,
`SystemAutomation.scan_directory`)

Spreadsheet cells and loaded DB cells are both handled as
`Option String` after stringification: `none` is a pandas NaN / SQL
NULL, `some v` the stringified value. -/

/-- The ASCII whitespace characters `str.strip` removes. -/
def pyIsSpace (c : Char) : Bool :=
  c = ' ' ∨ c = '\t' ∨ c = '\n' ∨ c = '\r' ∨ c = '\x0b' ∨ c = '\x0c'

/-- Python `str.strip`: drop whitespace from both ends. -/
def pyStrip (s : String) : String :=
  String.mk (((s.data.dropWhile pyIsSpace).reverse.dropWhile
    pyIsSpace).reverse)

/-- Python `str.lower` (ASCII range suffices for the compared tokens). -/
def pyLower (s : String) : String :=
  String.mk (s.data.map Char.toLower)

/-- A Python float literal as `float(s)` classifies it: a finite exact
decimal `m · 10^k`, a signed infinity, or a NaN.  The grammar is the one
CPython accepts on already-stripped text: optional sign; then the words
`inf`, `infinity` or `nan` case-insensitively; or integer and/or
fractional decimal digits with an optional `e`/`E` exponent, where
single underscores may group digits (each underscore must sit between
two digits). -/
inductive PyNum where
  | finite (m k : Int)
  | pinf
  | ninf
  | nanv
deriving DecidableEq

/-- Digit-group underscore validation: every underscore must have a
decimal digit immediately before and after it (the CPython rule).  The
first argument carries the previous character. -/
def underscoresOk : Option Char → List Char → Bool
  | _, [] => true
  | prev, '_' :: rest =>
    (match prev with
     | some c => c.isDigit
     | none => false)
      && (match rest with
          | c :: _ => c.isDigit
          | [] => false)
      && underscoresOk (some '_') rest
  | _, c :: rest => underscoresOk (some c) rest

/-- Model of the parsing step of Python `float(s)` on the stripped
strings the comparison feeds it.  The finite value is kept exact as
`m · 10^k`; rounding to the binary64 value `float` actually returns
happens in `pyFloatVal` below.  Digits are ASCII decimal digits, in
line with the treatment of text elsewhere in this development. -/
def parsePyFloat (s : String) : Option PyNum :=
  let step1 : Bool × List Char :=
    match s.data with
    | '-' :: rest => (true, rest)
    | '+' :: rest => (false, rest)
    | l => (false, l)
  let neg := step1.1
  let l1 := step1.2
  let low := l1.map Char.toLower
  if low = "inf".data ∨ low = "infinity".data then
    some (if neg then .ninf else .pinf)
  else if low = "nan".data then some .nanv
  else if !underscoresOk none l1 then none
  else
    let l2 := l1.filter (fun c => c != '_')
    let ip := l2.takeWhile Char.isDigit
    let l3 := l2.dropWhile Char.isDigit
    let step2 : List Char × List Char :=
      match l3 with
      | '.' :: rest => (rest.takeWhile Char.isDigit, rest.dropWhile Char.isDigit)
      | l => ([], l)
    let fp := step2.1
    let l4 := step2.2
    if ip.isEmpty && fp.isEmpty then none
    else
      let sign : Int := if neg then -1 else 1
      let mant : Int := sign * (digitsVal (ip ++ fp) : Int)
      match l4 with
      | [] => some (.finite mant (-(fp.length : Int)))
      | e :: rest =>
        if e = 'e' ∨ e = 'E' then
          let step3 : Int × List Char :=
            match rest with
            | '-' :: r2 => (-1, r2)
            | '+' :: r2 => (1, r2)
            | r2 => (1, r2)
          if step3.2.isEmpty || step3.2.any (fun c => !c.isDigit) then none
          else some (.finite mant
            (step3.1 * (digitsVal step3.2 : Int) - (fp.length : Int)))
        else none

/-- An IEEE-754 binary64 value in canonical form, as produced by
`roundF64`: `zero` (covering both signed zeros, which compare equal),
a finite non-zero value `±s · 2^t` — normal values carry
`2^52 ≤ s < 2^53`, subnormal values carry `t = -1074` and `s < 2^52`,
so the representation of a value is unique — an infinity, or NaN. -/
inductive F64 where
  | zero
  | finite (neg : Bool) (s : Nat) (t : Int)
  | inf (neg : Bool)
  | nanF
deriving DecidableEq

/-- Round the fraction `num / den` to the nearest integer, ties to
even — the IEEE-754 default rounding. -/
def rndHalfEven (num den : Nat) : Nat :=
  let q := num / den
  let r := num % den
  if 2 * r < den then q
  else if den < 2 * r then q + 1
  else if q % 2 = 0 then q else q + 1

/-- Fuel-driven bit-length recursion (the fuel only bounds the number
of halvings; it always suffices when it is the number itself). -/
def bitLenAux : Nat → Nat → Nat
  | 0, _ => 0
  | f + 1, n => if n ≤ 1 then 0 else bitLenAux f (n / 2) + 1

/-- Floor of the base-2 logarithm of a positive natural number. -/
def floorLog2 (n : Nat) : Nat := bitLenAux n n

/-- Floor of the base-2 logarithm of the positive fraction `a / b`:
from the bit lengths the result is `d` or `d - 1`, decided by one exact
comparison. -/
def ratFloorLog2 (a b : Nat) : Int :=
  let d : Int := (floorLog2 a : Int) - (floorLog2 b : Int)
  if b * 2 ^ d.toNat ≤ a * 2 ^ (-d).toNat then d else d - 1

/-- Round the positive fraction `a / b` to the nearest binary64 value
(round half to even): `none` is overflow to infinity; otherwise the
significand-exponent pair `(s, t)` denoting `s · 2^t`, with `s = 0` for
underflow to zero.  Normal values get `2^52 ≤ s ≤ 2^53` at step
`t = e - 52` (a carry to `2^53` moves up one exponent); values below
`2^-1022` are rounded on the fixed subnormal grid `2^-1074`. -/
def roundF64pos (a b : Nat) : Option (Nat × Int) :=
  let e := ratFloorLog2 a b
  if 1024 ≤ e then none
  else if e < -1022 then some (rndHalfEven (a * 2 ^ (1074 : Nat)) b, -1074)
  else
    let s :=
      if e ≤ 52 then rndHalfEven (a * 2 ^ (52 - e).toNat) b
      else rndHalfEven a (b * 2 ^ (e - 52).toNat)
    if s = 2 ^ (53 : Nat) then
      if e = 1023 then none else some (2 ^ (52 : Nat), e - 51)
    else some (s, e - 52)

/-- Signed rounding to a canonical `F64` (zero is sign-less, matching
`+0.0 == -0.0` in Python). -/
def roundF64 (neg : Bool) (a b : Nat) : F64 :=
  if a = 0 then .zero
  else
    match roundF64pos a b with
    | none => .inf neg
    | some (0, _) => .zero
    | some (s, t) => .finite neg s t

/-- The binary64 value `float(s)` returns for a parsed literal: the
exact decimal `m · 10^k` is correctly rounded, exactly as the CPython
string-to-double conversion does. -/
def pyFloatVal : PyNum → F64
  | .finite m k =>
    if 0 ≤ k then roundF64 (decide (m < 0)) (m.natAbs * 10 ^ k.toNat) 1
    else roundF64 (decide (m < 0)) m.natAbs (10 ^ (-k).toNat)
  | .pinf => .inf false
  | .ninf => .inf true
  | .nanv => .nanF

/-- The `==` of Python on two doubles: NaN is equal to nothing (itself
included); zeros compare equal regardless of sign; infinities compare
by sign; finite values by their canonical representation. -/
def f64Eqb : F64 → F64 → Bool
  | .nanF, _ => false
  | _, .nanF => false
  | .zero, .zero => true
  | .inf s1, .inf s2 => s1 == s2
  | .finite n1 s1 t1, .finite n2 s2 t2 => n1 == n2 && s1 == s2 && t1 == t2
  | _, _ => false

/-- The numeric-equality test `excel_num == db_num` of the comparison:
parse both literals, round both to binary64, compare as doubles. -/
def pyFloatEqb (x y : PyNum) : Bool :=
  f64Eqb (pyFloatVal x) (pyFloatVal y)

/-- Normalisation both sides of a field comparison get (`automation.py`
lines 179-188): a missing/NaN/NULL cell becomes `""`, values are
stripped, and a (case-insensitive) literal `nan` becomes `""`. -/
def normField (raw : Option String) : String :=
  let v := match raw with
           | none => ""
           | some x => pyStrip x
  if pyLower v = "nan" then "" else v

/-- Per-field change test (`automation.py` lines 179-203): after
normalisation, two non-empty values that both parse numerically and are
numerically equal are never flagged; everything else is flagged exactly
when the normalised strings differ. -/
def fieldChanged (excelCell dbCell : Option String) : Bool :=
  let e := normField excelCell
  let d := normField dbCell
  let numEq : Bool :=
    if e = "" || d = "" then false
    else
      match parsePyFloat e, parsePyFloat d with
      | some x, some y => pyFloatEqb x y
      | _, _ => false
  if numEq then false else decide (e ≠ d)

/-- The fixed list of compared column pairs (spreadsheet name, stored
field name) from `automation.py` lines 147-174. -/
def compare_fields : List (String × String) :=
  [("Tanggal PO", "tanggal_po"), ("Layanan", "layanan"), ("Brand", "brand"),
   ("Sub Klasifikasi", "sub_klasifikasi"), ("Jenis Aset", "jenis_aset"),
   ("Spesifikasi", "spesifikasi"), ("OS", "os"), ("Quantity", "quantity"),
   ("Harga Pembelian", "harga_pembelian"), ("Pemilik Asset", "pemilik_asset"),
   ("Unit", "unit"), ("Client", "client"), ("Penyedia Aset", "penyedia_aset"),
   ("Pemegang Aset", "pemegang_aset"), ("PIC", "pic"), ("User", "user"),
   ("Lokasi Aset", "lokasi_aset"), ("Area", "area"), ("Status", "status"),
   ("Sub Status", "sub_status"), ("Masa Berlaku", "masa_berlaku"),
   ("Kerahasiaan", "kerahasiaan"), ("Integritas", "integritas"),
   ("Ketersediaan", "ketersediaan"), ("Nilai", "nilai"),
   ("Keterangan", "keterangan")]

/-- A row as a dict from column name to NULL/NaN (`none`) or a
stringified value. -/
abbrev RowDict := List (String × Option String)

/-- Lookup with an empty-string default, as `dict.get` with a default
does on both the spreadsheet row and the loaded DB row: a missing key yields the
plain string `""`, a present key its (possibly NULL/NaN) value. -/
def dictGet (row : RowDict) (c : String) : Option String :=
  match row.lookup c with
  | none => some ""
  | some v => v

/-- Whether a keyed spreadsheet row differs from its stored row on any
compared field. -/
def row_changed (excelRow dbRow : RowDict) : Bool :=
  compare_fields.any (fun pc => fieldChanged (dictGet excelRow pc.1) (dictGet dbRow pc.2))

/-- `str(row.get('Kode','')).strip()`: note `str` of a pandas NaN is the
text `"nan"`. -/
def rowKode (row : RowDict) : String :=
  pyStrip (match dictGet row "Kode" with
           | none => "nan"
           | some v => v)

/-- A candidate spreadsheet file after parsing with `header=5` and
column-name stripping. -/
structure ExcelFile where
  filename : String
  columns : List String
  rows : List RowDict
deriving DecidableEq

/-- The three signature columns of an asset export. -/
def signature_columns : List String := ["Kode", "Nama Aset", "Serial Number"]

/-- Heuristic file check: at least 2 of the 3 signature columns. -/
def is_asset_file (f : ExcelFile) : Bool :=
  2 ≤ (signature_columns.filter (fun c => f.columns.contains c)).length

/-- The per-file diff report, projected onto the parts the claims probe:
captured new rows, the kodes flagged as changed, the kodes missing from
the file. -/
structure FileReport where
  filename : String
  new_rows : List RowDict
  changed_kodes : List String
  missing_kodes : List String
deriving DecidableEq

/-- Per-file processing: skip non-asset files; classify each non-empty
kode as new (absent from the loaded inventory) or changed (any compared
field differs); stored kodes absent from the whole file are missing;
a file with no differences yields no report. -/
def scan_file (dbInv : List (String × RowDict)) (f : ExcelFile) :
    Option FileReport :=
  if !is_asset_file f then none
  else
    let keyed := (f.rows.map (fun r => (rowKode r, r))).filter (fun kr => kr.1 != "")
    let excelKodes := keyed.map (fun kr => kr.1)
    let newRows := (keyed.filter (fun kr => (dbInv.lookup kr.1).isNone)).map (fun kr => kr.2)
    let changed := (keyed.filter (fun kr =>
      match dbInv.lookup kr.1 with
      | none => false
      | some dbRow => row_changed kr.2 dbRow)).map (fun kr => kr.1)
    let missing := (dbInv.map (fun kv => kv.1)).filter (fun k => !excelKodes.contains k)
    if newRows.isEmpty && changed.isEmpty && missing.isEmpty then none
    else some ⟨f.filename, newRows, changed, missing⟩

/-- The columns `create_tables` gives `fact_inventory` — the complete
list from the CREATE TABLE statement in `src/helpers/db.py`. -/
def fact_inventory_columns : List String :=
  ["kode", "serial_number", "tanggal_po", "layanan", "brand", "nama_aset",
   "sub_klasifikasi", "jenis_aset", "spesifikasi", "os", "quantity",
   "harga_pembelian", "pemilik_asset", "unit", "client", "penyedia_aset",
   "pemegang_aset", "pic", "user", "lokasi_aset", "area", "status",
   "sub_status", "masa_berlaku", "kerahasiaan", "integritas",
   "ketersediaan", "nilai", "keterangan", "last_so_date", "timestamp"]

/-- The columns that the loading SELECT of the scan references in its
WHERE clause:
`SELECT * FROM fact_inventory WHERE is_deleted = 0 OR is_deleted IS NULL`. -/
def scan_load_where_columns : List String := ["is_deleted"]

/-- The kode a loaded DB row dict is keyed under (the kode cell of the
row). -/
def dbRowKode (r : RowDict) : String :=
  match r.lookup "kode" with
  | some (some k) => k
  | _ => ""

/-- The DB-loading step of the scan.  SQLite resolves every column
named in the statement against the schema of the table first; an
unknown column makes
the `execute` raise `OperationalError: no such column: <name>`.  Only
when all referenced columns exist does the query run and the non-deleted
rows get keyed by kode. -/
def run_scan_load (dbRows : List RowDict) :
    Except String (List (String × RowDict)) :=
  match scan_load_where_columns.find? (fun c => !fact_inventory_columns.contains c) with
  | some c => .error ("no such column: " ++ c)
  | none =>
    .ok ((dbRows.filter (fun r =>
      match r.lookup "is_deleted" with
      | some (some v) => v == "0"
      | _ => true)).map (fun r => (dbRowKode r, r)))

/-- The process-wide scan result (`SCAN_RESULTS` module global). -/
structure ScanResults where
  detected_files : List FileReport
  last_scan : Option String
  status : String
deriving DecidableEq

/-- One scan run: load the inventory (which can throw — nothing catches
a failure of this step), then diff every candidate file (per-file errors
are contained), and compute the result that the final three statements
publish. -/
def scan_directory (now : String) (dbRows : List RowDict)
    (files : List ExcelFile) : Except String ScanResults :=
  match run_scan_load dbRows with
  | .error e => .error e
  | .ok inv =>
    let reports := files.filterMap (scan_file inv)
    .ok ⟨reports, some now, if reports.isEmpty then "ok" else "warning"⟩

/-- The publication of a finished scan (`automation.py` lines 236-238):
three successive in-place mutations of the shared `SCAN_RESULTS` dict —
first `last_scan`, then `detected_files`, then `status`.  The list holds
the successive states of the shared dict a concurrent reader can
observe. -/
def publish_steps (old : ScanResults) (now : String)
    (reports : List FileReport) : List ScanResults :=
  let s1 := { old with last_scan := some now }
  let s2 := { s1 with detected_files := reports }
  let s3 := { s2 with status := if reports.isEmpty then "ok" else "warning" }
  [s1, s2, s3]

/-! ## Auxiliary executable predicates used in counterexample statements -/

/-- Whether the first list is an initial segment of the second. -/
def leadsWith : List Char → List Char → Bool
  | [], _ => true
  | _ :: _, [] => false
  | a :: as, b :: bs => a == b && leadsWith as bs

/-- Whether the first list occurs contiguously inside the second. -/
def occursIn (needle : List Char) : List Char → Bool
  | [] => needle.isEmpty
  | c :: cs => leadsWith needle (c :: cs) || occursIn needle cs

/-! ## Concrete stores used by witnesses and counterexamples -/

/-- A store already holding kode `A002` (the second kode a bulk run from
base `A001` derives). -/
def c4db : DbState := [⟨some "A002", some "X", some "Laptop", some 1, "t0"⟩]

/-- The report the failed bulk run surfaces in that scenario. -/
def c4report : String := "❌ Error: UNIQUE constraint failed: fact_inventory.kode"

/-- Two same-asset rows with equal-width numeric kodes. -/
def c8db : DbState :=
  [⟨some "0124", none, some "Laptop", some 1, "t"⟩,
   ⟨some "0224", none, some "Laptop", some 1, "t"⟩]

/-- A previous complete scan result. -/
def c9old : ScanResults :=
  ⟨[⟨"f.xlsx", [], ["K"], []⟩], some "2024-01-01T00:00:00", "warning"⟩

/-- A spreadsheet row carrying a multi-unit quantity. -/
def c7row : ExcelIngestRow := ⟨"K1", none, "Laptop", some 5⟩

/-- A store holding one row with kode `K1` and serial `S`. -/
def c6db : DbState := [⟨some "K1", some "S", some "L", some 1, "t"⟩]

/-- An insert whose serial duplicates the stored one, whose kode is
fresh, and which carries a caller-chosen timestamp. -/
def c6data : InsertData := ⟨some "K2", some "S", some "L", some 1, some "caller-clock"⟩

/-! ### Facts about the sequencer -/

theorem takeWhile_append_of_all {α : Type} (P : α → Bool) (l1 l2 : List α)
    (h : ∀ c ∈ l1, P c = true) :
    (l1 ++ l2).takeWhile P = l1 ++ l2.takeWhile P := by
  induction l1 with
  | nil => simp
  | cons a as ih =>
    simp only [List.cons_append, List.takeWhile_cons]
    rw [h a (by simp)]
    simp [ih (fun c hc => h c (by simp [hc]))]

theorem dropWhile_append_of_all {α : Type} (P : α → Bool) (l1 l2 : List α)
    (h : ∀ c ∈ l1, P c = true) :
    (l1 ++ l2).dropWhile P = l2.dropWhile P := by
  induction l1 with
  | nil => simp
  | cons a as ih =>
    simp only [List.cons_append, List.dropWhile_cons]
    rw [h a (by simp)]
    simp [ih (fun c hc => h c (by simp [hc]))]

theorem takeWhile_eq_nil_of_head {α : Type} (P : α → Bool) (a : α) (l : List α)
    (h : P a = false) : (a :: l).takeWhile P = [] := by
  simp [List.takeWhile_cons, h]

theorem dropWhile_eq_self_of_head {α : Type} (P : α → Bool) (a : α) (l : List α)
    (h : P a = false) : (a :: l).dropWhile P = a :: l := by
  simp [List.dropWhile_cons, h]

/-- On a list shaped `before ++ run ++ after` — `run` a nonempty digit
run, `after` digit-free, `before` not ending in a digit — `lastDigitRun`
recovers exactly that decomposition. -/
theorem lastDigitRun_spec (p r t : List Char)
    (hr : r ≠ [])
    (hrd : ∀ c ∈ r, c.isDigit = true)
    (ht : ∀ c ∈ t, c.isDigit = false)
    (hp : ∀ c, p.getLast? = some c → c.isDigit = false) :
    lastDigitRun (p ++ r ++ t) = some (p, r, t) := by
  have hrev : (p ++ r ++ t).reverse = t.reverse ++ (r.reverse ++ p.reverse) := by
    simp [List.reverse_append, List.append_assoc]
  -- the reversed run is nonempty and begins with a digit
  obtain ⟨d, rr, hdr⟩ : ∃ d rr, r.reverse = d :: rr := by
    cases h : r.reverse with
    | nil => exact absurd (by simpa using congrArg List.reverse h) hr
    | cons d rr => exact ⟨d, rr, rfl⟩
  have hd : d.isDigit = true := by
    have : d ∈ r.reverse := by rw [hdr]; exact List.mem_cons_self d rr
    exact hrd d (by simpa using this)
  -- the reversed `before` part starts with a non-digit (or is empty)
  have hpstart : ∀ c ∈ (p.reverse.takeWhile Char.isDigit), False := by
    intro c hc
    cases hprev : p.reverse with
    | nil => rw [hprev] at hc; simp at hc
    | cons a as =>
      have ha : a.isDigit = false := by
        apply hp
        rw [← List.head?_reverse]
        rw [hprev]; rfl
      rw [hprev, takeWhile_eq_nil_of_head Char.isDigit a as ha] at hc
      simp at hc
  have htake1 : ((p ++ r ++ t).reverse).takeWhile (fun c => !c.isDigit) = t.reverse := by
    rw [hrev, takeWhile_append_of_all _ t.reverse _
      (by intro c hc; simp [ht c (by simpa using hc)])]
    rw [hdr, List.cons_append,
      takeWhile_eq_nil_of_head _ d (rr ++ p.reverse) (by simp [hd])]
    simp
  have hdrop1 : ((p ++ r ++ t).reverse).dropWhile (fun c => !c.isDigit)
      = r.reverse ++ p.reverse := by
    rw [hrev, dropWhile_append_of_all _ t.reverse _
      (by intro c hc; simp [ht c (by simpa using hc)])]
    rw [hdr, List.cons_append,
      dropWhile_eq_self_of_head _ d (rr ++ p.reverse) (by simp [hd]),
      ← List.cons_append, ← hdr]
  have htake2 : (r.reverse ++ p.reverse).takeWhile Char.isDigit = r.reverse := by
    rw [takeWhile_append_of_all _ r.reverse _
      (by intro c hc; exact hrd c (by simpa using hc))]
    cases hptake : p.reverse.takeWhile Char.isDigit with
    | nil => simp
    | cons a as =>
      exact absurd (hpstart a (by rw [hptake]; simp)) (by simp)
  have hdrop2 : (r.reverse ++ p.reverse).dropWhile Char.isDigit = p.reverse := by
    rw [dropWhile_append_of_all _ r.reverse _
      (by intro c hc; exact hrd c (by simpa using hc))]
    cases hprev : p.reverse with
    | nil => simp
    | cons a as =>
      apply dropWhile_eq_self_of_head
      apply hp
      rw [← List.head?_reverse, hprev]; rfl
  unfold lastDigitRun
  rw [htake1, hdrop1, htake2, hdrop2]
  rw [if_neg (by rw [hdr]; simp)]
  simp

/-- `zfill` never truncates: the length of the result is the max of
the requested width and the length of the input. -/
theorem zfill_length (l : List Char) (w : Nat) :
    (zfill l w).length = max l.length w := by
  unfold zfill
  match l with
  | [] => simp
  | c :: rest =>
    by_cases h : c = '-' ∨ c = '+' <;> simp [h, List.length_replicate] <;> omega

/-- The splice equation for `increment_string` on a decomposed input. -/
theorem increment_string_spec (p r t : List Char) (steps : Int)
    (hr : r ≠ [])
    (hrd : ∀ c ∈ r, c.isDigit = true)
    (ht : ∀ c ∈ t, c.isDigit = false)
    (hp : ∀ c, p.getLast? = some c → c.isDigit = false) :
    increment_string (String.mk (p ++ r ++ t)) steps
      = String.mk (p ++ zfill (toString ((digitsVal r : Int) + steps)).data r.length ++ t) := by
  unfold increment_string
  have hne : String.mk (p ++ r ++ t) ≠ "" := by
    intro h
    have : (p ++ r ++ t) = [] := by
      have := congrArg String.data h
      simpa using this
    rcases List.append_eq_nil.mp this with ⟨h1, _⟩
    rcases List.append_eq_nil.mp h1 with ⟨_, h3⟩
    exact hr h3
  rw [if_neg hne]
  have : (String.mk (p ++ r ++ t)).data = p ++ r ++ t := rfl
  rw [this, lastDigitRun_spec p r t hr hrd ht hp]

/-- Strings with no digit at all are returned unchanged. -/
theorem increment_string_no_digit (s : String) (steps : Int)
    (h : ∀ c ∈ s.data, c.isDigit = false) :
    increment_string s steps = s := by
  unfold increment_string
  by_cases hs : s = ""
  · simp [hs]
  · rw [if_neg hs]
    have hdrop : (s.data.reverse).dropWhile (fun c => !c.isDigit) = [] := by
      rw [List.dropWhile_eq_nil_iff]
      intro c hc
      simp [h c (by simpa using hc)]
    unfold lastDigitRun
    simp [hdrop]


/-! ## Claim C2 — identifier sequencer contract -/

/-- C2: `increment_string` locates the rightmost maximal decimal-digit
run, adds `steps` to its value, re-renders it zero-padded to the original
run length without ever truncating (the padded rendering is
`max` of the two lengths long), and splices prefix + padded + suffix;
digit-free strings return unchanged; and the five documented examples
hold. -/
theorem claim_C2_increment_sequencer :
    (∀ (p r t : List Char) (steps : Int),
        r ≠ [] → (∀ c ∈ r, c.isDigit = true) → (∀ c ∈ t, c.isDigit = false) →
        (∀ c, p.getLast? = some c → c.isDigit = false) →
        increment_string (String.mk (p ++ r ++ t)) steps
            = String.mk
                (p ++ zfill (toString ((digitsVal r : Int) + steps)).data r.length ++ t)
          ∧ (zfill (toString ((digitsVal r : Int) + steps)).data r.length).length
              = max (toString ((digitsVal r : Int) + steps)).data.length r.length)
    ∧ (∀ (s : String) (steps : Int),
        (∀ c ∈ s.data, c.isDigit = false) → increment_string s steps = s)
    ∧ increment_string "BTPNINFJKT/0124/4.0055 NB" 1 = "BTPNINFJKT/0124/4.0056 NB"
    ∧ increment_string "SN-100" 2 = "SN-102"
    ∧ increment_string "NoNumber" 1 = "NoNumber"
    ∧ increment_string "v09" 1 = "v10"
    ∧ increment_string "v99" 1 = "v100" := by
  refine ⟨?_, increment_string_no_digit, by decide, by decide, by decide, by decide, by decide⟩
  intro p r t steps hr hrd ht hp
  exact ⟨increment_string_spec p r t steps hr hrd ht hp,
    zfill_length (toString ((digitsVal r : Int) + steps)).data r.length⟩

/-- Closed instance of the C2 splice equation at `p = "v"`-free input
`"" ++ "09" ++ ""` with step 1. -/
theorem claim_C2_witness :
    increment_string (String.mk (([] : List Char) ++ "09".data ++ [])) 1
      = String.mk (([] : List Char)
          ++ zfill (toString ((digitsVal "09".data : Int) + 1)).data "09".data.length
          ++ []) :=
  (claim_C2_increment_sequencer.1 [] "09".data [] 1 (by decide) (by decide)
    (by decide) (by simp)).1

/-! ## Claim C1 — the scan cannot even load the inventory -/

/-- C1 (code bug): the loading SELECT of `scan_directory` filters on an
`is_deleted` column that `create_tables` never gives `fact_inventory`,
so SQLite raises `OperationalError: no such column: is_deleted` on every
scan invocation, before any record is loaded, any file is diffed or any
result is published — the claimed ok/empty-diff idempotent outcome is
unreachable on any database and any file set. -/
theorem claim_C1_scan_always_fails_to_load :
    "is_deleted" ∉ fact_inventory_columns
    ∧ ∀ (now : String) (dbRows : List RowDict) (files : List ExcelFile),
        scan_directory now dbRows files = Except.error "no such column: is_deleted" :=
  ⟨by decide, fun _ _ _ => rfl⟩


/-! ## Claim C3 — bulk creation derives sequential identifiers -/

theorem kode_exists_eq_false {db : DbState} {k : String} :
    kode_exists db k = false ↔ ∀ r ∈ db, r.kode ≠ some k := by
  simp [kode_exists, List.any_eq_true]

/-- A bulk run whose whole kode sequence is fresh and duplicate-free
succeeds, appending exactly the expected rows and creating exactly the
expected kodes. -/
theorem bulkLoop_success (now asset : String) :
    ∀ (n : Nat) (db : DbState) (ck cs : String),
      (∀ c ∈ incSeq ck n, ∀ r ∈ db, r.kode ≠ some c) →
      (incSeq ck n).Nodup →
      bulkLoop now asset db ck cs n
        = (db ++ bulkRows now asset ck cs n, incSeq ck n, none) := by
  intro n
  induction n with
  | zero => intro db ck cs _ _; simp [bulkLoop, bulkRows, incSeq]
  | succ m ih =>
    intro db ck cs hfresh hnodup
    have hck : ck ∈ incSeq ck (m + 1) := by simp [incSeq]
    have hnotin : kode_exists db ck = false :=
      kode_exists_eq_false.mpr (hfresh ck hck)
    have hins : insert_inventory now (mkDialogData asset ck cs) db
        = .ok (db ++ [mkInvRow now asset ck cs]) := by
      simp [insert_inventory, mkDialogData, hnotin, mkInvRow]
    have htail : ∀ c ∈ incSeq (increment_string ck 1) m,
        ∀ r ∈ db ++ [mkInvRow now asset ck cs], r.kode ≠ some c := by
      intro c hc r hrmem
      rcases List.mem_append.mp hrmem with hdb | hnew
      · exact hfresh c (by simp [incSeq, hc]) r hdb
      · have hr : r = mkInvRow now asset ck cs := by simpa using hnew
        subst hr
        have hne : ck ≠ c := by
          intro he
          have : ck ∉ incSeq (increment_string ck 1) m :=
            (List.nodup_cons.mp (by simpa [incSeq] using hnodup)).1
          exact this (he ▸ hc)
        intro hcontra
        have : ck = c := by simpa [mkInvRow] using hcontra
        exact hne this
    have hnd : (incSeq (increment_string ck 1) m).Nodup :=
      (List.nodup_cons.mp (by simpa [incSeq] using hnodup)).2
    have := ih (db ++ [mkInvRow now asset ck cs]) (increment_string ck 1)
      (if cs = "" then cs else increment_string cs 1) htail hnd
    simp only [bulkLoop, hins, this]
    simp [incSeq, bulkRows]

/-- The first element of the attempted kode sequence is the base kode. -/
theorem incSeq_head (s : String) (n : Nat) (h : 0 < n) :
    (incSeq s n)[0]? = some s := by
  cases n with
  | zero => omega
  | succ m => simp [incSeq]

/-- Each later element of the kode sequence is the sequencer applied to
the previous one. -/
theorem incSeq_chain (s : String) (n : Nat) :
    ∀ i, i + 1 < n →
      (incSeq s n)[i + 1]?
        = ((incSeq s n)[i]?).map (fun c => increment_string c 1) := by
  induction n generalizing s with
  | zero => intro i hi; omega
  | succ m ih =>
    intro i hi
    cases i with
    | zero =>
      have hm : 0 < m := by omega
      simp [incSeq, incSeq_head _ _ hm]
    | succ j =>
      have := ih (increment_string s 1) j (by omega)
      simpa [incSeq] using this

/-- The serial sequence starts at the base serial and steps by the
sequencer exactly on non-empty values (an empty serial is reused). -/
theorem serialSeq_chain (s : String) (n : Nat) :
    ∀ i, i + 1 < n →
      (serialSeq s n)[i + 1]?
        = ((serialSeq s n)[i]?).map
            (fun v => if v = "" then v else increment_string v 1) := by
  induction n generalizing s with
  | zero => intro i hi; omega
  | succ m ih =>
    intro i hi
    cases i with
    | zero =>
      cases m with
      | zero => omega
      | succ k => simp [serialSeq]
    | succ j =>
      have := ih (if s = "" then s else increment_string s 1) j (by omega)
      simpa [serialSeq] using this

/-- C3: with quantity `N ≥ 1`, iteration 0 uses the base kode and serial
verbatim and each later iteration applies the sequencer to the previous
value (the serial only when non-empty); a run over fresh kodes creates
exactly the expected sequential kodes, and the concrete
`A001`/quantity-3 scenario creates `["A001", "A002", "A003"]`. -/
theorem claim_C3_bulk_sequential_codes :
    (∀ (now asset kode serial : String) (q : Nat) (db : DbState),
        1 ≤ q →
        kode ≠ "" →
        (incSeq kode q).Nodup →
        (∀ c ∈ incSeq kode q, ∀ r ∈ db, r.kode ≠ some c) →
        add_inventory_save now asset kode serial q db
            = .succeeded (db ++ bulkRows now asset kode serial q) (incSeq kode q)
          ∧ (incSeq kode q)[0]? = some kode
          ∧ (serialSeq serial q)[0]? = some serial
          ∧ (∀ i, i + 1 < q →
              (incSeq kode q)[i + 1]?
                = ((incSeq kode q)[i]?).map (fun c => increment_string c 1))
          ∧ (∀ i, i + 1 < q →
              (serialSeq serial q)[i + 1]?
                = ((serialSeq serial q)[i]?).map
                    (fun v => if v = "" then v else increment_string v 1)))
    ∧ add_inventory_save "t0" "Laptop" "A001" "" 3 []
        = .succeeded
            [mkInvRow "t0" "Laptop" "A001" "", mkInvRow "t0" "Laptop" "A002" "",
             mkInvRow "t0" "Laptop" "A003" ""]
            ["A001", "A002", "A003"] := by
  constructor
  · intro now asset kode serial q db hq1 hk hnodup hfresh
    refine ⟨?_, incSeq_head kode q hq1, ?_, incSeq_chain kode q,
      serialSeq_chain serial q⟩
    · have hke : kode_exists db kode = false := by
        cases q with
        | zero => omega
        | succ m => exact kode_exists_eq_false.mpr (hfresh kode (by simp [incSeq]))
      simp only [add_inventory_save, hk, hke]
      rw [bulkLoop_success now asset q db kode serial hfresh hnodup]
      simp
    · cases q with
      | zero => omega
      | succ m => simp [serialSeq]
  · decide


/-- Closed instance of C3: the concrete `A001`/quantity-3 bulk run
succeeds with the computed rows and kode sequence. -/
theorem claim_C3_witness :
    add_inventory_save "t0" "Laptop" "A001" "" 3 []
      = DialogOutcome.succeeded ([] ++ bulkRows "t0" "Laptop" "A001" "" 3)
          (incSeq "A001" 3) :=
  (claim_C3_bulk_sequential_codes.1 "t0" "Laptop" "A001" "" 3 []
    (by decide) (by decide) (by decide) (by decide)).1

/-! ## Claim C4 — failure mid-batch: halt, keep commits, but the report
names neither the partial count nor the failing kode -/

/-- C4 (counterexample to the reporting part): base `A001`, quantity 3,
`A002` already stored — the run halts after exactly one committed record,
but the only surfaced report is the storage layer constraint message,
which contains neither the failing kode `A002` nor the partial success
count `1`. -/
theorem claim_C4_counterexample :
    add_inventory_save "t1" "Laptop" "A001" "" 3 c4db
      = DialogOutcome.failed (c4db ++ [mkInvRow "t1" "Laptop" "A001" ""]) ["A001"]
          c4report
    ∧ occursIn "A002".data c4report.data = false
    ∧ occursIn "1".data c4report.data = false :=
  ⟨by decide, by decide, by decide⟩

/-- C4 (amended): when the base kode is fresh but its first increment
already exists and quantity is at least 2, the run commits the first
record, halts (no rollback of the committed record, no further
iteration), and surfaces the storage layer duplicate-key message — a
report that carries neither the partial success count nor the failing
kode value. -/
theorem claim_C4_halt_keeps_commits (now asset kode serial : String)
    (q : Nat) (db : DbState)
    (hq : 2 ≤ q)
    (hk : kode ≠ "")
    (hfresh : ∀ r ∈ db, r.kode ≠ some kode)
    (hdup : kode_exists db (increment_string kode 1) = true) :
    add_inventory_save now asset kode serial q db
      = DialogOutcome.failed (db ++ [mkInvRow now asset kode serial]) [kode]
          ("❌ Error: " ++ errMsg (DbErr.dupKey "fact_inventory.kode")) := by
  obtain ⟨m, rfl⟩ : ∃ m, q = m + 2 := ⟨q - 2, by omega⟩
  have hke : kode_exists db kode = false := kode_exists_eq_false.mpr hfresh
  have hins : insert_inventory now (mkDialogData asset kode serial) db
      = .ok (db ++ [mkInvRow now asset kode serial]) := by
    simp [insert_inventory, mkDialogData, hke, mkInvRow]
  have hdup2 : kode_exists (db ++ [mkInvRow now asset kode serial])
      (increment_string kode 1) = true := by
    simp only [kode_exists] at hdup ⊢
    simp [List.any_append, hdup]
  have hins2 : ∀ cs2 : String,
      insert_inventory now (mkDialogData asset (increment_string kode 1) cs2)
        (db ++ [mkInvRow now asset kode serial])
      = .error (.dupKey "fact_inventory.kode") := by
    intro cs2
    simp [insert_inventory, mkDialogData, hdup2]
  simp only [add_inventory_save, bulkLoop, hins, hins2]
  simp [hk, hke]

/-- Closed instance of the amended C4 statement in the concrete
`A001`/`A002`/quantity-3 scenario. -/
theorem claim_C4_witness :
    add_inventory_save "t1" "Laptop" "A001" "" 3 c4db
      = DialogOutcome.failed (c4db ++ [mkInvRow "t1" "Laptop" "A001" ""]) ["A001"]
          ("❌ Error: " ++ errMsg (DbErr.dupKey "fact_inventory.kode")) :=
  claim_C4_halt_keeps_commits "t1" "Laptop" "A001" "" 3 c4db
    (by decide) (by decide) (by decide) (by decide)



/-! ## Claim C6 — insert failure is exactly kode duplication; timestamp
is server-side -/

theorem kode_exists_eq_true {db : DbState} {k : String} :
    kode_exists db k = true ↔ ∃ r ∈ db, r.kode = some k := by
  simp [kode_exists, List.any_eq_true]

/-- Shape of any successful insert: the table grows by exactly the row
built from the caller data and the server clock. -/
theorem insert_inventory_ok_shape (now : String) (d : InsertData)
    (db db2 : DbState) (h : insert_inventory now d db = .ok db2) :
    db2 = db ++ [⟨d.kode, d.serial_number, d.nama_aset, d.quantity, now⟩] := by
  obtain ⟨dk, ds, dn, dq, dt⟩ := d
  cases dn with
  | none => simp [insert_inventory] at h
  | some a =>
    cases dk with
    | none =>
      simp only [insert_inventory] at h
      exact (Except.ok.inj h).symm
    | some k =>
      by_cases hex : kode_exists db k = true
      · simp [insert_inventory, hex] at h
      · simp only [insert_inventory, if_neg hex] at h
        exact (Except.ok.inj h).symm

/-- A non-NULL asset name and a fresh (or NULL) kode make the insert
succeed. -/
theorem insert_inventory_ok_of (now : String) (d : InsertData) (db : DbState)
    (hn : d.nama_aset ≠ none)
    (hk : ∀ k, d.kode = some k → kode_exists db k = false) :
    insert_inventory now d db
      = .ok (db ++ [⟨d.kode, d.serial_number, d.nama_aset, d.quantity, now⟩]) := by
  obtain ⟨dk, ds, dn, dq, dt⟩ := d
  cases dn with
  | none => exact absurd rfl hn
  | some a =>
    cases dk with
    | none => rfl
    | some k =>
      have hf : kode_exists db k = false := hk k rfl
      simp [insert_inventory, hf]

/-- A duplicate kode makes the insert fail with the duplicate-key
error. -/
theorem insert_inventory_error_of_dup (now : String) (d : InsertData)
    (db : DbState) (k : String) (hn : d.nama_aset ≠ none)
    (hk : d.kode = some k) (hex : kode_exists db k = true) :
    insert_inventory now d db = .error (.dupKey "fact_inventory.kode") := by
  obtain ⟨dk, ds, dn, dq, dt⟩ := d
  cases dn with
  | none => exact absurd rfl hn
  | some a =>
    have hdk : dk = some k := hk
    subst hdk
    simp [insert_inventory, hex]

/-- Any failing insert with a non-NULL asset name fails as a duplicate
kode. -/
theorem insert_inventory_error_cases (now : String) (d : InsertData)
    (db : DbState) (e : DbErr) (hn : d.nama_aset ≠ none)
    (h : insert_inventory now d db = .error e) :
    e = .dupKey "fact_inventory.kode"
      ∧ ∃ k, d.kode = some k ∧ kode_exists db k = true := by
  obtain ⟨dk, ds, dn, dq, dt⟩ := d
  cases dn with
  | none => exact absurd rfl hn
  | some a =>
    cases dk with
    | none => simp [insert_inventory] at h
    | some k =>
      by_cases hex : kode_exists db k = true
      · simp [insert_inventory, hex] at h
        exact ⟨h.symm, k, rfl, hex⟩
      · simp [insert_inventory, hex] at h

/-- C6: with the asset name supplied (as every caller in the repository
does), `insert_inventory` fails exactly when the kode duplicates a
stored one — and then with the duplicate-key error; a duplicate serial
with a fresh kode succeeds; successful inserts append the row stamped
with the server clock, and a caller-supplied timestamp never influences
the result. -/
theorem claim_C6_insert_contract (now : String) (d : InsertData)
    (db : DbState) (hn : d.nama_aset ≠ none) :
    ((∃ e, insert_inventory now d db = .error e)
        ↔ ∃ k, d.kode = some k ∧ ∃ r ∈ db, r.kode = some k)
    ∧ (∀ e, insert_inventory now d db = .error e
        → e = .dupKey "fact_inventory.kode")
    ∧ (∀ db2, insert_inventory now d db = .ok db2
        → db2 = db ++ [⟨d.kode, d.serial_number, d.nama_aset, d.quantity, now⟩])
    ∧ (∀ sn, d.serial_number = some sn → serial_exists db sn = true →
        (∀ k, d.kode = some k → kode_exists db k = false) →
        ∃ db2, insert_inventory now d db = .ok db2)
    ∧ (∀ t, insert_inventory now { d with suppliedTimestamp := t } db
        = insert_inventory now d db) := by
  refine ⟨⟨?_, ?_⟩, ?_, ?_, ?_, ?_⟩
  · rintro ⟨e, he⟩
    obtain ⟨-, k, hk, hex⟩ := insert_inventory_error_cases now d db e hn he
    exact ⟨k, hk, kode_exists_eq_true.mp hex⟩
  · rintro ⟨k, hk, hr⟩
    exact ⟨_, insert_inventory_error_of_dup now d db k hn hk
      (kode_exists_eq_true.mpr hr)⟩
  · intro e he
    exact (insert_inventory_error_cases now d db e hn he).1
  · intro db2 h
    exact insert_inventory_ok_shape now d db db2 h
  · intro sn hsn hdup hfresh
    exact ⟨_, insert_inventory_ok_of now d db hn hfresh⟩
  · intro t
    obtain ⟨dk, ds, dn, dq, dt⟩ := d
    rfl

/-- Closed instance of C6: inserting a record whose serial duplicates a
stored serial but whose kode is fresh succeeds. -/
theorem claim_C6_witness :
    ∃ db2, insert_inventory "now" c6data c6db = .ok db2 :=
  (claim_C6_insert_contract "now" c6data c6db (by decide)).2.2.2.1 "S"
    (by decide) (by decide)
    (fun k hk => by injection hk with h; subst h; decide)


/-! ## Claim C7 — stored quantity: always 1 on the dialog paths, but the
spreadsheet ingest persists the cell value verbatim -/

/-- C7 (counterexample): ingesting a spreadsheet row with `Quantity`
5 and a fresh kode persists one record whose stored quantity is 5, not
1 — the ingest path does not explode multi-unit rows. -/
theorem claim_C7_counterexample :
    (ingest_row_insert "t" [] c7row).1
      = [⟨some "K1", none, some "Laptop", some 5, "t"⟩]
    ∧ ∃ r ∈ (ingest_row_insert "t" [] c7row).1,
        r.quantity = some 5 ∧ r.quantity ≠ some 1 := by
  refine ⟨by decide, ?_⟩
  exact ⟨⟨some "K1", none, some "Laptop", some 5, "t"⟩, by decide, by decide, by decide⟩

/-- Every row a bulk-dialog run adds carries quantity 1. -/
theorem bulkLoop_quantity_one (now asset : String) :
    ∀ (n : Nat) (db : DbState) (ck cs : String) (r : InvRow),
      r ∈ (bulkLoop now asset db ck cs n).1 → r ∈ db ∨ r.quantity = some 1 := by
  intro n
  induction n with
  | zero => intro db ck cs r h; exact Or.inl (by simpa [bulkLoop] using h)
  | succ m ih =>
    intro db ck cs r h
    by_cases hex : kode_exists db ck = true
    · have herr : insert_inventory now (mkDialogData asset ck cs) db
          = .error (.dupKey "fact_inventory.kode") :=
        insert_inventory_error_of_dup now _ db ck (by simp [mkDialogData]) rfl hex
      rw [bulkLoop, herr] at h
      exact Or.inl h
    · have hins : insert_inventory now (mkDialogData asset ck cs) db
          = .ok (db ++ [mkInvRow now asset ck cs]) := by
        simpa [mkDialogData, mkInvRow] using
          insert_inventory_ok_of now (mkDialogData asset ck cs) db
            (by simp [mkDialogData])
            (by intro k hk
                have : ck = k := by simpa [mkDialogData] using hk
                subst this
                simpa using hex)
      rw [bulkLoop, hins] at h
      simp only at h
      rcases ih (db ++ [mkInvRow now asset ck cs]) _ _ r h with hmem | hq
      · rcases List.mem_append.mp hmem with h1 | h2
        · exact Or.inl h1
        · right
          have : r = mkInvRow now asset ck cs := by simpa using h2
          subst this
          rfl
      · exact Or.inr hq

/-- C7 (amended): every record the add-inventory dialog persists (single
or bulk, on success or on partial failure) stores quantity 1; the
spreadsheet ingest instead persists the row quantity cell verbatim — one
stored record per spreadsheet row, without exploding counts. -/
theorem claim_C7_quantity_invariant :
    (∀ (now asset kode serial : String) (q : Nat) (db db2 : DbState)
        (created : List String) (report : String),
        add_inventory_save now asset kode serial q db
            = .failed db2 created report →
        ∀ r ∈ db2, r ∈ db ∨ r.quantity = some 1)
    ∧ (∀ (now asset kode serial : String) (q : Nat) (db db2 : DbState)
        (created : List String),
        add_inventory_save now asset kode serial q db
            = .succeeded db2 created →
        ∀ r ∈ db2, r ∈ db ∨ r.quantity = some 1)
    ∧ (∀ (now : String) (db : DbState) (row : ExcelIngestRow),
        ∀ r ∈ (ingest_row_insert now db row).1,
          r ∈ db ∨ r.quantity = row.quantity) := by
  have hloop := bulkLoop_quantity_one
  refine ⟨?_, ?_, ?_⟩
  · intro now asset kode serial q db db2 created report h r hr
    unfold add_inventory_save at h
    by_cases hempty : ((if kode = "" then ["Kode base value is required"] else []) ++
        (if kode ≠ "" ∧ kode_exists db kode = true then
          ["Base Kode already exists. Please choose a starting value that does not exist."]
        else [])).isEmpty = true
    · rw [if_pos hempty] at h
      rcases hres : bulkLoop now asset db kode serial q with ⟨db3, created3, err3⟩
      rw [hres] at h
      cases err3 with
      | none => simp at h
      | some msg =>
        simp only [DialogOutcome.failed.injEq] at h
        obtain ⟨h1, -, -⟩ := h
        subst h1
        exact hloop now asset q db kode serial r (by rw [hres]; exact hr)
    · rw [if_neg hempty] at h
      exact DialogOutcome.noConfusion h
  · intro now asset kode serial q db db2 created h r hr
    unfold add_inventory_save at h
    by_cases hempty : ((if kode = "" then ["Kode base value is required"] else []) ++
        (if kode ≠ "" ∧ kode_exists db kode = true then
          ["Base Kode already exists. Please choose a starting value that does not exist."]
        else [])).isEmpty = true
    · rw [if_pos hempty] at h
      rcases hres : bulkLoop now asset db kode serial q with ⟨db3, created3, err3⟩
      rw [hres] at h
      cases err3 with
      | none =>
        simp only [DialogOutcome.succeeded.injEq] at h
        obtain ⟨h1, -⟩ := h
        subst h1
        exact hloop now asset q db kode serial r (by rw [hres]; exact hr)
      | some msg => simp at h
    · rw [if_neg hempty] at h
      exact DialogOutcome.noConfusion h
  · intro now db row r hr
    unfold ingest_row_insert at hr
    by_cases h1 : row.kode = ""
    · rw [if_pos h1] at hr; exact Or.inl hr
    · rw [if_neg h1] at hr
      by_cases h2 : kode_exists db row.kode = true
      · rw [if_pos h2] at hr; exact Or.inl hr
      · rw [if_neg h2] at hr
        rcases List.mem_append.mp hr with h3 | h4
        · exact Or.inl h3
        · right
          have : r = ⟨some row.kode, row.serial_number, some row.nama_aset,
              row.quantity, now⟩ := by simpa using h4
          subst this
          rfl

/-- Closed instance of the C7 ingest conjunct at the multi-unit row. -/
theorem claim_C7_witness :
    (⟨some "K1", none, some "Laptop", some 5, "t"⟩ : InvRow) ∈ ([] : DbState)
    ∨ (⟨some "K1", none, some "Laptop", some 5, "t"⟩ : InvRow).quantity
        = c7row.quantity :=
  claim_C7_quantity_invariant.2.2 "t" [] c7row
    ⟨some "K1", none, some "Laptop", some 5, "t"⟩ (by decide)

/-! ## Claim C10 — combined upsert is transactional -/

/-- C10: the combined asset-and-inventory upsert is atomic — any failure
(in particular a duplicate inventory kode) rolls the whole transaction
back, leaving the store unchanged; a success on a previously unknown
asset commits the asset row and the inventory row together. -/
theorem claim_C10_upsert_atomic (now : String) (db : FullDb)
    (assetData : AssetDef) (invData : InsertData) :
    (∀ e, (upsert_asset_and_inventory now db assetData invData).2 = some e →
        (upsert_asset_and_inventory now db assetData invData).1 = db)
    ∧ (invData.nama_aset ≠ none → ∀ k, invData.kode = some k →
        kode_exists db.inventory k = true →
        (upsert_asset_and_inventory now db assetData invData).2
          = some (.dupKey "fact_inventory.kode"))
    ∧ ((∀ a ∈ db.assets, a.nama_aset ≠ assetData.nama_aset) →
        (upsert_asset_and_inventory now db assetData invData).2 = none →
        (upsert_asset_and_inventory now db assetData invData).1
          = ⟨db.assets ++ [assetData],
             db.inventory ++ [⟨invData.kode, invData.serial_number,
               invData.nama_aset, invData.quantity, now⟩]⟩) := by
  refine ⟨?_, ?_, ?_⟩
  · intro e he
    unfold upsert_asset_and_inventory at he ⊢
    rcases hres : insert_inventory now invData db.inventory with e2 | inv2
    · rfl
    · rw [hres] at he
      simp at he
  · intro hn k hk hex
    unfold upsert_asset_and_inventory
    rw [insert_inventory_error_of_dup now invData db.inventory k hn hk hex]
  · intro hnew hok
    have hknown : db.assets.any
        (fun a => a.nama_aset == assetData.nama_aset) = false := by
      rw [Bool.eq_false_iff]
      intro hcontra
      rcases List.any_eq_true.mp hcontra with ⟨a, ha, heq⟩
      exact absurd (by simpa using heq) (hnew a ha)
    unfold upsert_asset_and_inventory at hok ⊢
    rcases hres : insert_inventory now invData db.inventory with e2 | inv2
    · rw [hres] at hok
      simp at hok
    · have hshape := insert_inventory_ok_shape now invData db.inventory inv2 hres
      subst hshape
      simp [hknown]

/-- Closed instance of C10: a duplicate inventory kode fails the upsert
and leaves the two-table store untouched. -/
theorem claim_C10_witness :
    (upsert_asset_and_inventory "now" ⟨[], c6db⟩ ⟨"L", none, none, none, none, none⟩
        ⟨some "K1", none, some "L", some 1, none⟩).1 = ⟨[], c6db⟩ :=
  (claim_C10_upsert_atomic "now" ⟨[], c6db⟩ ⟨"L", none, none, none, none, none⟩
      ⟨some "K1", none, some "L", some 1, none⟩).1
    (DbErr.dupKey "fact_inventory.kode")
    ((claim_C10_upsert_atomic "now" ⟨[], c6db⟩ ⟨"L", none, none, none, none, none⟩
        ⟨some "K1", none, some "L", some 1, none⟩).2.1 (by decide) "K1" rfl (by decide))


/-! ## Claim C8 — `get_latest_item` is the lexicographic maximum -/

theorem strLe_cons_iff (x y : Char) (xs ys : List Char) :
    strLe (x :: xs) (y :: ys) = true
      ↔ (x < y ∨ (x = y ∧ strLe xs ys = true)) := by
  by_cases h1 : x < y
  · simp [strLe, h1]
  · by_cases h2 : x = y
    · simp [strLe, h1, h2]
    · simp [strLe, h1, h2]

theorem strLe_refl (l : List Char) : strLe l l = true := by
  induction l with
  | nil => rfl
  | cons c cs ih => simp [strLe, lt_irrefl, ih]

theorem strLe_total (a b : List Char) : strLe a b = true ∨ strLe b a = true := by
  induction a generalizing b with
  | nil => exact Or.inl rfl
  | cons x xs ih =>
    cases b with
    | nil => exact Or.inr rfl
    | cons y ys =>
      rcases lt_trichotomy x y with h | h | h
      · exact Or.inl ((strLe_cons_iff x y xs ys).mpr (Or.inl h))
      · subst h
        rcases ih ys with h2 | h2
        · exact Or.inl ((strLe_cons_iff x x xs ys).mpr (Or.inr ⟨rfl, h2⟩))
        · exact Or.inr ((strLe_cons_iff x x ys xs).mpr (Or.inr ⟨rfl, h2⟩))
      · exact Or.inr ((strLe_cons_iff y x ys xs).mpr (Or.inl h))

theorem strLe_trans (a b c : List Char) (h1 : strLe a b = true)
    (h2 : strLe b c = true) : strLe a c = true := by
  induction a generalizing b c with
  | nil => rfl
  | cons x xs ih =>
    cases b with
    | nil => simp [strLe] at h1
    | cons y ys =>
      cases c with
      | nil => simp [strLe] at h2
      | cons z zs =>
        rcases (strLe_cons_iff x y xs ys).mp h1 with hxy | ⟨hxy, hxs⟩
        · rcases (strLe_cons_iff y z ys zs).mp h2 with hyz | ⟨hyz, hys⟩
          · exact (strLe_cons_iff x z xs zs).mpr (Or.inl (lt_trans hxy hyz))
          · exact (strLe_cons_iff x z xs zs).mpr (Or.inl (hyz ▸ hxy))
        · subst hxy
          rcases (strLe_cons_iff x z ys zs).mp h2 with hyz | ⟨hyz, hys⟩
          · exact (strLe_cons_iff x z xs zs).mpr (Or.inl hyz)
          · subst hyz
            exact (strLe_cons_iff x x xs zs).mpr (Or.inr ⟨rfl, ih ys zs hxs hys⟩)

/-- `strLe` is the (reflexive) lexicographic order on character lists. -/
theorem strLe_iff_lex (a b : List Char) :
    strLe a b = true ↔ (List.Lex (· < ·) a b ∨ a = b) := by
  induction a generalizing b with
  | nil =>
    cases b with
    | nil =>
      constructor
      · intro _; exact Or.inr rfl
      · intro _; rfl
    | cons y ys =>
      constructor
      · intro _; exact Or.inl List.Lex.nil
      · intro _; rfl
  | cons x xs ih =>
    cases b with
    | nil =>
      constructor
      · intro h; simp [strLe] at h
      · rintro (h | h)
        · cases h
        · exact absurd h (by simp)
    | cons y ys =>
      rw [strLe_cons_iff]
      constructor
      · rintro (h | ⟨rfl, h⟩)
        · exact Or.inl (List.Lex.rel h)
        · rcases (ih ys).mp h with h2 | rfl
          · exact Or.inl (List.Lex.cons h2)
          · exact Or.inr rfl
      · rintro (h | h)
        · cases h with
          | rel h2 => exact Or.inl h2
          | cons h2 => exact Or.inr ⟨rfl, (ih ys).mpr (Or.inl h2)⟩
        · injection h with h1 h2
          subst h1; subst h2
          exact Or.inr ⟨rfl, strLe_refl xs⟩

theorem kodeLe_refl (a : Option String) : kodeLe a a = true := by
  cases a with
  | none => rfl
  | some x => simpa [kodeLe] using strLe_refl x.data

theorem kodeLe_total (a b : Option String) :
    kodeLe a b = true ∨ kodeLe b a = true := by
  cases a with
  | none => exact Or.inl rfl
  | some x =>
    cases b with
    | none => exact Or.inr rfl
    | some y => simpa [kodeLe] using strLe_total x.data y.data

theorem kodeLe_trans (a b c : Option String) (h1 : kodeLe a b = true)
    (h2 : kodeLe b c = true) : kodeLe a c = true := by
  cases a with
  | none => rfl
  | some x =>
    cases b with
    | none => simp [kodeLe] at h1
    | some y =>
      cases c with
      | none => simp [kodeLe] at h2
      | some z =>
        simp only [kodeLe] at *
        exact strLe_trans x.data y.data z.data h1 h2

/-- The fold underlying `get_latest_item` returns an element that is in
the seed-or-list and bounds everything it has seen. -/
theorem pickLatest_spec (l : List InvRow) :
    ∀ m : InvRow,
      ∃ r, pickLatest (some m) l = some r
        ∧ (r = m ∨ r ∈ l)
        ∧ kodeLe m.kode r.kode = true
        ∧ ∀ x ∈ l, kodeLe x.kode r.kode = true := by
  induction l with
  | nil =>
    intro m
    exact ⟨m, rfl, Or.inl rfl, kodeLe_refl m.kode, by simp⟩
  | cons a as ih =>
    intro m
    by_cases h : kodeLe m.kode a.kode = true
    · have hstep : pickLatest (some m) (a :: as) = pickLatest (some a) as := by
        simp [pickLatest, List.foldl_cons, h]
      obtain ⟨r, h1, h2, h3, h4⟩ := ih a
      refine ⟨r, hstep ▸ h1, ?_, kodeLe_trans _ _ _ h h3, ?_⟩
      · rcases h2 with rfl | hr
        · exact Or.inr (List.mem_cons_self _ _)
        · exact Or.inr (List.mem_cons_of_mem a hr)
      · intro x hx
        rcases List.mem_cons.mp hx with rfl | hx2
        · exact h3
        · exact h4 x hx2
    · have hstep : pickLatest (some m) (a :: as) = pickLatest (some m) as := by
        simp [pickLatest, List.foldl_cons, h]
      obtain ⟨r, h1, h2, h3, h4⟩ := ih m
      have hax : kodeLe a.kode m.kode = true := by
        rcases kodeLe_total a.kode m.kode with h5 | h5
        · exact h5
        · exact absurd h5 h
      refine ⟨r, hstep ▸ h1, ?_, h3, ?_⟩
      · rcases h2 with rfl | hr
        · exact Or.inl rfl
        · exact Or.inr (List.mem_cons_of_mem a hr)
      · intro x hx
        rcases List.mem_cons.mp hx with rfl | hx2
        · exact kodeLe_trans _ _ _ hax h3
        · exact h4 x hx2

/-- C8: `get_latest_item` returns no row exactly when the asset has no
inventory, otherwise a row of that asset whose kode bounds (under the
NULL-last lexicographic order) every kode of the asset; `strLe` is
lexicographic order; and on the equal-width pair `0124`/`0224` the
returned latest kode is `0224`. -/
theorem claim_C8_latest_item (db : DbState) (nama : String) :
    (get_latest_item db nama = none ↔ ∀ r ∈ db, r.nama_aset ≠ some nama)
    ∧ (∀ r, get_latest_item db nama = some r →
        r ∈ db ∧ r.nama_aset = some nama
          ∧ ∀ x ∈ db, x.nama_aset = some nama → kodeLe x.kode r.kode = true)
    ∧ (∀ a b : List Char, strLe a b = true ↔ (List.Lex (· < ·) a b ∨ a = b))
    ∧ get_latest_item c8db "Laptop"
        = some ⟨some "0224", none, some "Laptop", some 1, "t"⟩ := by
  refine ⟨?_, ?_, strLe_iff_lex, by decide⟩
  · unfold get_latest_item
    generalize hf : db.filter (fun r => r.nama_aset == some nama) = l
    cases l with
    | nil =>
      constructor
      · intro _ r hr hcontra
        have hmem : r ∈ db.filter (fun r => r.nama_aset == some nama) :=
          List.mem_filter.mpr ⟨hr, by simp [hcontra]⟩
        rw [hf] at hmem
        simp at hmem
      · intro _; rfl
    | cons a as =>
      obtain ⟨r2, h1, -, -, -⟩ := pickLatest_spec as a
      constructor
      · intro hnone
        rw [show pickLatest none (a :: as) = pickLatest (some a) as from by
          simp [pickLatest, List.foldl_cons], h1] at hnone
        exact Option.noConfusion hnone
      · intro hall
        exfalso
        have ha : a ∈ db.filter (fun r => r.nama_aset == some nama) := by
          rw [hf]; exact List.mem_cons_self a as
        have hm := List.mem_filter.mp ha
        exact absurd (by simpa using hm.2) (hall a hm.1)
  · intro r hget
    unfold get_latest_item at hget
    revert hget
    generalize hf : db.filter (fun r => r.nama_aset == some nama) = l
    intro hget
    cases l with
    | nil => exact Option.noConfusion hget
    | cons a as =>
      rw [show pickLatest none (a :: as) = pickLatest (some a) as from by
        simp [pickLatest, List.foldl_cons]] at hget
      obtain ⟨r2, h1, h2, h3, h4⟩ := pickLatest_spec as a
      rw [h1] at hget
      have h0 : r2 = r := Option.some.inj hget
      rw [← h0]
      have hrl : r2 ∈ db.filter (fun x => x.nama_aset == some nama) := by
        rw [hf]
        rcases h2 with rfl | hr
        · exact List.mem_cons_self _ _
        · exact List.mem_cons_of_mem a hr
      have hrdb := List.mem_filter.mp hrl
      refine ⟨hrdb.1, by simpa using hrdb.2, ?_⟩
      intro x hx hxn
      have hxl : x ∈ db.filter (fun x => x.nama_aset == some nama) :=
        List.mem_filter.mpr ⟨hx, by simp [hxn]⟩
      rw [hf] at hxl
      rcases List.mem_cons.mp hxl with rfl | hx2
      · exact h3
      · exact h4 x hx2

/-- Closed instance of C8 at the `0124`/`0224` store: the returned row
is a `Laptop` row whose kode bounds both stored kodes. -/
theorem claim_C8_witness :
    (⟨some "0224", none, some "Laptop", some 1, "t"⟩ : InvRow) ∈ c8db
    ∧ (⟨some "0224", none, some "Laptop", some 1, "t"⟩ : InvRow).nama_aset
        = some "Laptop"
    ∧ ∀ x ∈ c8db, x.nama_aset = some "Laptop" →
        kodeLe x.kode
          (⟨some "0224", none, some "Laptop", some 1, "t"⟩ : InvRow).kode
          = true :=
  (claim_C8_latest_item c8db "Laptop").2.1
    ⟨some "0224", none, some "Laptop", some 1, "t"⟩ (by decide)


/-! ## Claim C9 — publication is three mutations, not one atomic swap -/

/-- C9 (counterexample): after the first of the three publication
assignments the shared state already carries the new timestamp but still
the old file list and status — a state that is neither the previous
complete result nor the new complete result, refuting the single-
atomic-swap claim. -/
theorem claim_C9_counterexample :
    (publish_steps c9old "2024-01-02T00:00:00" [])[0]?
        = some ⟨c9old.detected_files, some "2024-01-02T00:00:00", c9old.status⟩
    ∧ (⟨c9old.detected_files, some "2024-01-02T00:00:00", c9old.status⟩
        : ScanResults) ≠ c9old
    ∧ (⟨c9old.detected_files, some "2024-01-02T00:00:00", c9old.status⟩
        : ScanResults) ≠ ⟨[], some "2024-01-02T00:00:00", "ok"⟩
    ∧ (publish_steps c9old "2024-01-02T00:00:00" []).getLast?
        = some ⟨[], some "2024-01-02T00:00:00", "ok"⟩ := by
  refine ⟨by decide, by decide, by decide, by decide⟩

/-- C9 (amended): the scan result is published by three successive field
assignments — `last_scan`, then `detected_files`, then `status` — whose
final state is the complete new result; whenever the new file list and
timestamp differ from the old ones, the state after the first
assignment is neither the old complete result nor the new one, so a
concurrent reader can observe a torn result. -/
theorem claim_C9_publish_not_atomic (old : ScanResults) (now : String)
    (reports : List FileReport)
    (hfiles : old.detected_files ≠ reports)
    (htime : old.last_scan ≠ some now) :
    publish_steps old now reports
        = [⟨old.detected_files, some now, old.status⟩,
           ⟨reports, some now, old.status⟩,
           ⟨reports, some now, if reports.isEmpty then "ok" else "warning"⟩]
    ∧ ∃ s ∈ publish_steps old now reports,
        s ≠ old
        ∧ s ≠ ⟨reports, some now, if reports.isEmpty then "ok" else "warning"⟩ := by
  refine ⟨rfl, ⟨⟨old.detected_files, some now, old.status⟩, ?_, ?_, ?_⟩⟩
  · simp [publish_steps]
  · intro h
    exact htime (by rw [← h])
  · intro h
    exact hfiles (congrArg ScanResults.detected_files h)

/-- Closed instance of the amended C9 statement. -/
theorem claim_C9_witness :
    publish_steps c9old "2024-01-02T00:00:00" []
        = [⟨c9old.detected_files, some "2024-01-02T00:00:00", c9old.status⟩,
           ⟨[], some "2024-01-02T00:00:00", c9old.status⟩,
           ⟨[], some "2024-01-02T00:00:00",
             if ([] : List FileReport).isEmpty then "ok" else "warning"⟩]
    ∧ ∃ s ∈ publish_steps c9old "2024-01-02T00:00:00" [],
        s ≠ c9old
        ∧ s ≠ ⟨[], some "2024-01-02T00:00:00",
            if ([] : List FileReport).isEmpty then "ok" else "warning"⟩ :=
  claim_C9_publish_not_atomic c9old "2024-01-02T00:00:00" []
    (by decide) (by decide)


/-! ## Claim C5 — numeric-aware field comparison -/

/-- Double equality holds exactly for equal non-NaN canonical values. -/
theorem f64Eqb_iff (u v : F64) :
    f64Eqb u v = true ↔ (u = v ∧ u ≠ F64.nanF ∧ v ≠ F64.nanF) := by
  cases u <;> cases v <;> simp [f64Eqb, and_assoc]

theorem parsePyFloat_ne_empty {s : String} {p : PyNum}
    (h : parsePyFloat s = some p) : s ≠ "" := by
  intro he
  subst he
  simp [parsePyFloat] at h

/-- C5: both sides of a field comparison normalise missing/NULL/NaN and
the literal text `nan` to the empty string; when both normalised sides
parse as float literals whose rounded binary64 values are equal (and
not NaN) the field is never flagged; in every other situation the flag
is exactly inequality of the normalised (stripped) strings.  In
particular `17700000` versus `"17700000.0"` is never flagged, and —
because equality is the 53-bit double equality of the runtime, not
exact decimal equality — decimal literals that round to the same
double, underscore-grouped literals and infinity spellings are not
flagged either, while literals one unit in the last place apart are. -/
theorem claim_C5_field_comparison :
    (∀ x, fieldChanged none x = fieldChanged (some "") x)
    ∧ (∀ x, fieldChanged x none = fieldChanged x (some ""))
    ∧ (∀ x, fieldChanged (some "nan") x = fieldChanged (some "") x)
    ∧ (∀ x, fieldChanged x (some "nan") = fieldChanged x (some ""))
    ∧ (∀ a b pa pb, parsePyFloat (normField a) = some pa →
        parsePyFloat (normField b) = some pb →
        pyFloatVal pa = pyFloatVal pb → pyFloatVal pa ≠ F64.nanF →
        fieldChanged a b = false)
    ∧ (∀ a b pa pb, parsePyFloat (normField a) = some pa →
        parsePyFloat (normField b) = some pb →
        (pyFloatVal pa ≠ pyFloatVal pb ∨ pyFloatVal pa = F64.nanF) →
        fieldChanged a b = decide (normField a ≠ normField b))
    ∧ (∀ a b, parsePyFloat (normField a) = none
          ∨ parsePyFloat (normField b) = none →
        fieldChanged a b = decide (normField a ≠ normField b))
    ∧ fieldChanged (some "17700000.0") (some "17700000") = false
    ∧ fieldChanged (some "17700000") (some "17700000.0") = false
    ∧ fieldChanged (some "17700000.000000000000001") (some "17700000") = false
    ∧ fieldChanged (some "0.30000000000000001") (some "0.3") = false
    ∧ fieldChanged (some "9007199254740993") (some "9007199254740992.0") = false
    ∧ fieldChanged (some "1_000") (some "1000.0") = false
    ∧ fieldChanged (some "inf") (some "Infinity") = false
    ∧ fieldChanged (some "0.1") (some "0.10000000000000002") = true := by
  refine ⟨fun x => rfl, fun x => rfl, fun x => rfl, fun x => rfl,
    ?_, ?_, ?_, by decide, by decide, by decide, by decide, by decide,
    by decide, by decide, by decide⟩
  · intro a b pa pb hpa hpb hv hn1
    have hea : normField a ≠ "" := parsePyFloat_ne_empty hpa
    have heb : normField b ≠ "" := parsePyFloat_ne_empty hpb
    have hnum : f64Eqb (pyFloatVal pa) (pyFloatVal pb) = true :=
      (f64Eqb_iff _ _).mpr ⟨hv, hn1, hv ▸ hn1⟩
    simp [fieldChanged, hea, heb, hpa, hpb, pyFloatEqb, hnum]
  · intro a b pa pb hpa hpb hne
    have hnum : pyFloatEqb pa pb = false := by
      rw [Bool.eq_false_iff]
      intro hcontra
      obtain ⟨hv, hn1, -⟩ := (f64Eqb_iff _ _).mp hcontra
      rcases hne with h | h
      · exact h hv
      · exact hn1 h
    simp [fieldChanged, hpa, hpb, hnum]
  · intro a b h
    rcases h with h | h
    · rcases hb : parsePyFloat (normField b) with _ | pb
      · simp [fieldChanged, h, hb]
      · simp [fieldChanged, h, hb]
    · rcases ha : parsePyFloat (normField a) with _ | pa
      · simp [fieldChanged, h, ha]
      · simp [fieldChanged, h, ha]

/-- Closed instance of the C5 numeric-equality conjunct at the
documented pair: both literals round to the same double. -/
theorem claim_C5_witness :
    fieldChanged (some "17700000.0") (some "17700000") = false :=
  claim_C5_field_comparison.2.2.2.2.1 (some "17700000.0") (some "17700000")
    (PyNum.finite 177000000 (-1)) (PyNum.finite 17700000 0)
    (by decide) (by decide) (by decide) (by decide)

end Valdo
